import Mathlib

/-!
Verification of the valuation and treemap-encoding pipeline of g-valuemap
(src/valuation.py and src/visualization.py), shallowly embedded in Lean.

Python floats that may be NaN are modelled as `Option ℚ` (`none` models
NaN or a missing value); float arithmetic is modelled exactly over `ℚ`,
which is faithful for every property stated here (no statement depends on
binary rounding error).
-/

namespace GValuemap

/-- A Python float value that may be NaN or missing: `none` models NaN/absent. -/
abbrev PyFloat := Option ℚ

/-- Model of `pd.notna` on a float value. -/
def notna (v : PyFloat) : Bool := v.isSome

/-- Python test `v > 0` on a possibly-NaN float (`nan > 0` is False). -/
def pyPos (v : PyFloat) : Bool :=
  match v with
  | some q => decide (0 < q)
  | none => false

/-- The `safe_float` helper of `calculate_pcf` (valuation.py lines 22-26):
`float(v) if pd.notna(v) else 0.0`, for numeric float-or-NaN inputs. -/
def safe_float (v : PyFloat) : ℚ :=
  match v with
  | some q => q
  | none => 0

/-- Python substring test `pat in l` on character lists. -/
def containsSub (pat : List Char) : List Char → Bool
  | [] => pat.isPrefixOf []
  | c :: rest => pat.isPrefixOf (c :: rest) || containsSub pat rest

/-- Python substring test `pat in s`. -/
def strContains (s pat : String) : Bool := containsSub pat.data s.data

/-- Python `str.lower()` (sector strings are ASCII). -/
def str_lower (s : String) : String := ⟨s.data.map Char.toLower⟩

/-- The fields of one raw security row that valuation.py reads. -/
structure Row where
  ticker_display : String
  market_cap : PyFloat
  sector : String
  ttm_ocf : PyFloat
  ttm_ffo_proxy : PyFloat
deriving DecidableEq

/-- Lines 32-52 of `calculate_pcf` (valuation.py): the `(cash_flow, cf_method)`
pair after the FFO preference for real-estate/REIT sectors and the OCF
fallback. `cash_flow = none` models the float NaN it is initialised with and
keeps when neither branch assigns it. -/
def pcf_select (row : Row) : PyFloat × String :=
  let sector := str_lower row.sector
  let ttm_ocf := safe_float row.ttm_ocf
  let ttm_ffo_proxy := safe_float row.ttm_ffo_proxy
  let step1 : PyFloat × String :=
    if (strContains sector ("real estate") || strContains sector ("reit"))
        && decide (0 < ttm_ffo_proxy)
    then (some ttm_ffo_proxy, "FFO")
    else (none, "OCF")
  match step1 with
  | (none, m) => if ttm_ocf ≠ 0 then (some ttm_ocf, "OCF") else (none, m)
  | s => s

/-- `calculate_pcf` (valuation.py lines 11-60). Returns `none` for the Python
`None`, and `some none` for the float NaN the source produces as
`market_cap / nan` when the cash flow stayed NaN: Python `nan <= 0` is False,
so the guard at line 56 does not fire and line 60 divides by NaN. -/
def calculate_pcf (row : Row) : Option PyFloat :=
  let market_cap := safe_float row.market_cap
  if market_cap ≤ 0 then none
  else
    match (pcf_select row).1 with
    | some cf => if cf ≤ 0 then none else some (some (market_cap / cf))
    | none => some none

/-- A `calculate_pcf` result is na: the Python `None` or the float NaN. -/
def isna : Option PyFloat → Bool
  | none => true
  | some none => true
  | some (some _) => false

/-- `get_cf_method` (valuation.py lines 63-70): tests the raw (un-coerced)
FFO proxy with `pd.notna` and `> 0`. -/
def get_cf_method (row : Row) : String :=
  let sector := str_lower row.sector
  let ffo := row.ttm_ffo_proxy
  if (strContains sector ("real estate") || strContains sector ("reit"))
      && (notna ffo && pyPos ffo)
  then "FFO"
  else "OCF"

/-- Ascending stable sort of history items by year:
`sorted(history.items(), key=lambda x: x[0])`. -/
def sortedHist (history : List (ℤ × PyFloat)) : List (ℤ × PyFloat) :=
  history.insertionSort fun a b => a.1 ≤ b.1

/-- The slice `sorted_items[-years:]`. -/
def keptHist (history : List (ℤ × PyFloat)) (years : ℕ) : List (ℤ × PyFloat) :=
  let s := sortedHist history
  s.drop (s.length - years)

/-- The regression points of `calculate_trend`: x is the 0-based position in
the kept window, assigned before the NaN mask is applied (lines 94-99), so a
dropped NaN value leaves a gap in the x values; y is the non-NaN value. -/
def trendPoints (history : List (ℤ × PyFloat)) (years : ℕ) : List (ℚ × ℚ) :=
  ((keptHist history years).map Prod.snd).enum.filterMap
    fun p => p.2.map fun v => ((p.1 : ℚ), v)

/-- The slope of `scipy.stats.linregress`: the ordinary-least-squares fit. -/
def olsSlope (pts : List (ℚ × ℚ)) : ℚ :=
  let n : ℚ := pts.length
  let xbar := (pts.map Prod.fst).sum / n
  let ybar := (pts.map Prod.snd).sum / n
  ((pts.map fun p => (p.1 - xbar) * (p.2 - ybar)).sum)
    / ((pts.map fun p => (p.1 - xbar) ^ 2).sum)

/-- `np.mean(np.abs(y))` over the regression points. -/
def meanAbs (pts : List (ℚ × ℚ)) : ℚ :=
  ((pts.map fun p => |p.2|).sum) / (pts.length : ℚ)

/-- `calculate_trend` (valuation.py lines 73-120). The `try/except` around
`linregress` cannot fire here: the x values are pairwise distinct whenever at
least two points remain, so the fit is always defined. -/
def calculate_trend (history : List (ℤ × PyFloat)) (years : ℕ) : String :=
  if history.isEmpty then "N/A"
  else if (sortedHist history).length < 2 then "N/A"
  else
    let pts := trendPoints history years
    if pts.length < 2 then "N/A"
    else if meanAbs pts = 0 then "Flat ➡"
    else
      let slope_pct := olsSlope pts / meanAbs pts
      if slope_pct > 0.05 then "Uptrend ↗"
      else if slope_pct < -0.05 then "Downtrend ↘"
      else "Flat ➡"

/-- `determine_trend` (valuation.py lines 147-163): the history-based trend
with the growth-rate fallback. A missing or non-dict history is the `none`
case of the outer option. -/
def determine_trend (history : Option (List (ℤ × PyFloat))) (growth_rate : PyFloat) : String :=
  let trend :=
    match history with
    | some h => if h.isEmpty then "N/A" else calculate_trend h 5
    | none => "N/A"
  if trend ≠ "N/A" then trend
  else
    match growth_rate with
    | none => "N/A"
    | some g =>
      if g > 0.05 then "Uptrend ↗"
      else if g < -0.05 then "Downtrend ↘"
      else "Flat ➡"

/-- Modelled from the spec: the classifier as §4.3 of the spec words it,
identical to `calculate_trend` except that the 0-based x index is the
positional rank among the points that remain after the NaN drop (spec steps
3-4, "index is purely positional rank among the retained points"). Present
only for comparison with `calculate_trend`. -/
def classifyTrendSpecWords (history : List (ℤ × PyFloat)) (years : ℕ) : String :=
  if history.isEmpty then "N/A"
  else if (sortedHist history).length < 2 then "N/A"
  else
    let pts := (((keptHist history years).map Prod.snd).filterMap id).enum.map
      fun p => ((p.1 : ℚ), p.2)
    if pts.length < 2 then "N/A"
    else if meanAbs pts = 0 then "Flat ➡"
    else
      let slope_pct := olsSlope pts / meanAbs pts
      if slope_pct > 0.05 then "Uptrend ↗"
      else if slope_pct < -0.05 then "Downtrend ↘"
      else "Flat ➡"

/-- Python `f"{q:.1f}"` on a nonnegative float, modelled with
round-to-nearest over ℚ (no statement below sits on a rounding tie). -/
def fmt1 (q : ℚ) : String :=
  let n : ℤ := round (q * 10)
  toString (n / 10) ++ "." ++ toString (n % 10)

/-- One enriched row of `process_dataframe` (valuation.py lines 123-183),
restricted to the columns visualization.py reads. -/
structure VRow where
  ticker_display : String
  market_cap : PyFloat
  pcf : PyFloat
  cf_method : String
  pcf_display : String
deriving DecidableEq

/-- The per-row body of `process_dataframe`. The `pcf` column stores
`calculate_pcf`'s result as the pandas float column does: the Python `None`
and the float NaN both become na, hence the `Option.join`. `pcf_display` is
`f"{x:.1f}x" if pd.notna(x) else "N/A"` (lines 175-177). -/
def enrich_row (row : Row) : VRow :=
  let pcf : PyFloat := (calculate_pcf row).join
  { ticker_display := row.ticker_display
    market_cap := row.market_cap
    pcf := pcf
    cf_method := get_cf_method row
    pcf_display :=
      match pcf with
      | some q => fmt1 q ++ "x"
      | none => "N/A" }

/-- Cell colour: the fixed grey of invalid rows, or a colourscale sample at a
clamped position in [0,1] (visualization.py lines 117-130; the batch
`sample_colorscale` call fills the placeholder of each valid row in order, so
it collapses to a per-row sample position). -/
inductive CellColor where
  | grey
  | scale (t : ℚ)
deriving DecidableEq

/-- One treemap cell produced by the row loop of `build_treemap`. -/
structure Cell where
  label : String
  value : ℚ
  grade : String
  color : CellColor
deriving DecidableEq

/-- The branch test `pd.isna(pcf) or pcf <= 0` (visualization.py line 86). -/
def isnaOrNonpos (v : PyFloat) : Bool :=
  match v with
  | none => true
  | some p => decide (p ≤ 0)

/-- Lines 82-123 of `build_treemap`: the label, size value, grade and colour
of one row. -/
def cellOf (r : VRow) (size_by_undervalue : Bool) : Cell :=
  if isnaOrNonpos r.pcf then
    { label := "<b>" ++ r.ticker_display ++ "</b><br>N/A"
      value := if size_by_undervalue then 1000 else safe_float r.market_cap
      grade := "음수/N/A"
      color := CellColor.grey }
  else
    let p := safe_float r.pcf
    let grade :=
      if p ≤ 10 then "🟢저평가"
      else if p ≤ 15 then "🔵중립"
      else if p ≤ 20 then "🟠약간고평가"
      else "🔴고평가"
    { label := "<b>" ++ r.ticker_display ++ "</b><br>" ++ r.pcf_display ++ " " ++ grade
      value := if size_by_undervalue then 1 / p * 1000000 else safe_float r.market_cap
      grade := grade
      color := CellColor.scale (max 0 (min 1 ((p - 0) / (30 - 0)))) }

/-- The cell-producing portion of `build_treemap` (visualization.py lines
42-130): the unconditional `market_cap > 0` pre-filter of line 48, the
`hide_negative_cf` filter on non-na `pcf` (lines 51-54), then the per-row
loop. The early returns for an empty input or an empty `df_show` produce
figures with zero treemap cells, which coincides with the empty list here. -/
def build_cells (df : List VRow) (hide_negative_cf : Bool) (size_by_undervalue : Bool) :
    List Cell :=
  let df1 := df.filter fun r => pyPos r.market_cap
  let df_show := if hide_negative_cf then df1.filter fun r => notna r.pcf else df1
  df_show.map fun r => cellOf r size_by_undervalue

/-- The return value of `get_summary_stats` (visualization.py lines 227-244). -/
structure Stats where
  total : ℕ
  valid : ℕ
  negative_cf : ℕ
  negative_cf_pct : String
  median_pcf : String
  mean_pcf : String
deriving DecidableEq

/-- pandas `Series.median` on a list of floats: the middle order statistic,
or the mean of the two central order statistics for an even length. -/
def listMedian (l : List ℚ) : ℚ :=
  let s := l.insertionSort fun a b => a ≤ b
  let n := s.length
  if n % 2 = 1 then s.getD (n / 2) 0
  else (s.getD (n / 2 - 1) 0 + s.getD (n / 2) 0) / 2

/-- `get_summary_stats` (visualization.py lines 227-244). The Python
truthiness tests `if med` and `if avg` are False for `None` and for `0.0`,
hence the inner zero tests. -/
def get_summary_stats (df : List VRow) : Stats :=
  let total := df.length
  let valid_df := df.filter fun r => notna r.pcf && pyPos r.pcf
  let valid_count := valid_df.length
  let neg := total - valid_count
  let vals := valid_df.map fun r => safe_float r.pcf
  let med : PyFloat := if valid_df.isEmpty then none else some (listMedian vals)
  let avg : PyFloat := if valid_df.isEmpty then none else some (vals.sum / (vals.length : ℚ))
  { total := total
    valid := valid_count
    negative_cf := neg
    negative_cf_pct := if total = 0 then "0%" else fmt1 ((neg : ℚ) / (total : ℚ) * 100) ++ "%"
    median_pcf :=
      match med with
      | some m => if m ≠ 0 then fmt1 m ++ "x" else "N/A"
      | none => "N/A"
    mean_pcf :=
      match avg with
      | some m => if m ≠ 0 then fmt1 m ++ "x" else "N/A"
      | none => "N/A" }

/-! Helper lemmas shared by several claims. -/

/-- The two tests `pd.notna(v) and v > 0` (on the raw value) and
`safe_float(v) > 0` (on the coerced value) agree on every float-or-NaN
input. -/
lemma notna_pyPos_eq (v : PyFloat) : (notna v && pyPos v) = decide (0 < safe_float v) := by
  cases v <;> simp [notna, pyPos, safe_float]

/-- C1 (amended): for every record, `calculate_pcf` is na — the Python `None`
or the float NaN, both rendered as Unvalued downstream — exactly when the
coerced market cap is `≤ 0` or the selected cash flow is not a positive
number (NaN, zero-turned-NaN, or negative); and any numeric result equals
marketCap divided by the selected cash flow and is strictly positive, never
zero or negative. -/
theorem C1_thm (row : Row) :
    (isna (calculate_pcf row)
       = (decide (safe_float row.market_cap ≤ 0) || !pyPos (pcf_select row).1)) ∧
    (∀ q : ℚ, calculate_pcf row = some (some q) →
       q = safe_float row.market_cap / safe_float (pcf_select row).1 ∧ 0 < q) := by
  by_cases hm : safe_float row.market_cap ≤ 0
  · constructor
    · simp [calculate_pcf, hm, isna]
    · intro q hq
      simp [calculate_pcf, hm] at hq
  · rcases hsel : (pcf_select row).1 with _ | cf
    · constructor
      · simp [calculate_pcf, hm, hsel, isna, pyPos]
      · intro q hq
        simp [calculate_pcf, hm, hsel] at hq
    · by_cases hcf : cf ≤ 0
      · constructor
        · simp [calculate_pcf, hm, hsel, hcf, isna, pyPos, not_lt.mpr hcf]
        · intro q hq
          simp [calculate_pcf, hm, hsel, hcf] at hq
      · push_neg at hcf
        constructor
        · simp [calculate_pcf, hm, hsel, not_le.mpr hcf, isna, pyPos, hcf]
        · intro q hq
          simp [calculate_pcf, hm, hsel, not_le.mpr hcf, isna] at hq
          subst hq
          simp [hsel, safe_float]
          exact div_pos (lt_of_not_le hm) hcf

/-- A row with positive market cap, non-REIT sector and OCF exactly zero. -/
def c1zero : Row :=
  { ticker_display := "Z", market_cap := some 100, sector := "Technology",
    ttm_ocf := some 0, ttm_ffo_proxy := none }

/-- C1 counterexample: on a record with positive market cap whose selected
OCF is exactly zero, `calculate_pcf` returns the float NaN (`some none`,
from `market_cap / nan` at line 60), not the sentinel `None` the claim
names. -/
theorem C1_cex : calculate_pcf c1zero = some none ∧ calculate_pcf c1zero ≠ none := by
  exact ⟨rfl, by decide⟩

/-- A row with positive market cap and positive OCF. -/
def c1good : Row :=
  { ticker_display := "G", market_cap := some 100, sector := "Technology",
    ttm_ocf := some 10, ttm_ffo_proxy := none }

/-- C1 witness: the numeric branch of `C1_thm` applied to a concrete valid
record. -/
theorem C1_wit :
    (100 / 10 : ℚ) = safe_float c1good.market_cap / safe_float (pcf_select c1good).1 ∧
    (0 : ℚ) < 100 / 10 :=
  (C1_thm c1good).2 (100 / 10) rfl

/-- C2: `get_cf_method` reports FFO exactly when the lowercased sector
contains "real estate" or "reit" and the raw FFO proxy is a defined (non-NaN)
strictly positive number; in every other case it reports OCF, and an absent
proxy is never treated as zero. -/
theorem C2_thm (row : Row) :
    (get_cf_method row = "FFO"
       ↔ ((strContains (str_lower row.sector) ("real estate") = true
             ∨ strContains (str_lower row.sector) ("reit") = true)
           ∧ ∃ v : ℚ, row.ttm_ffo_proxy = some v ∧ 0 < v)) ∧
    (get_cf_method row = "FFO" ∨ get_cf_method row = "OCF") ∧
    (row.ttm_ffo_proxy = none → get_cf_method row = "OCF") := by
  refine ⟨?_, ?_, ?_⟩
  · unfold get_cf_method
    rcases hf : row.ttm_ffo_proxy with _ | v
    · simp [notna, pyPos]
    · by_cases hv : 0 < v
      · by_cases hs : (strContains (str_lower row.sector) ("real estate")
            || strContains (str_lower row.sector) ("reit")) = true
        · simp_all [notna, pyPos]
        · simp_all [notna, pyPos]
      · simp_all [notna, pyPos]
  · by_cases hc : ((strContains (str_lower row.sector) ("real estate")
        || strContains (str_lower row.sector) ("reit"))
        && (notna row.ttm_ffo_proxy && pyPos row.ttm_ffo_proxy)) = true
    · simp [get_cf_method, hc]
    · simp [get_cf_method, hc]
  · intro hf
    unfold get_cf_method
    simp [hf, notna]

/-- A real-estate row whose FFO proxy is absent. -/
def c2na : Row :=
  { ticker_display := "R", market_cap := some 100, sector := "Real Estate",
    ttm_ocf := some 10, ttm_ffo_proxy := none }

/-- C2 witness: an absent FFO proxy forces OCF even for a real-estate
sector. -/
theorem C2_wit : get_cf_method c2na = "OCF" :=
  (C2_thm c2na).2.2 rfl

/-- C10: the standalone `get_cf_method` and the selection embedded in
`calculate_pcf` (`pcf_select`) agree on every float-or-NaN record — the
is-not-NaN test of one and the NaN-to-0.0 coercion of the other are
equivalent before a `> 0` test — and whenever they report FFO, the divisor
`calculate_pcf` selected is exactly the FFO proxy. -/
theorem C10_thm (row : Row) :
    get_cf_method row = (pcf_select row).2 ∧
    ((pcf_select row).2 = "FFO" → (pcf_select row).1 = some (safe_float row.ttm_ffo_proxy)) := by
  have key := notna_pyPos_eq row.ttm_ffo_proxy
  by_cases hs : (strContains (str_lower row.sector) ("real estate")
      || strContains (str_lower row.sector) ("reit")) = true <;>
  by_cases hv : 0 < safe_float row.ttm_ffo_proxy <;>
  by_cases ho : safe_float row.ttm_ocf = 0 <;>
    simp [get_cf_method, pcf_select, hs, hv, ho, key]

/-- A real-estate row with a positive FFO proxy. -/
def c10r : Row :=
  { ticker_display := "F", market_cap := some 100, sector := "Real Estate",
    ttm_ocf := some 10, ttm_ffo_proxy := some 5 }

/-- C10 witness: on a REIT-like record with positive proxy, the divisor
selected by `calculate_pcf` is the FFO proxy. -/
theorem C10_wit : (pcf_select c10r).1 = some (safe_float c10r.ttm_ffo_proxy) :=
  (C10_thm c10r).2 rfl

/-- The regression points are never more numerous than the sorted history. -/
lemma trendPoints_length_le (history : List (ℤ × PyFloat)) (years : ℕ) :
    (trendPoints history years).length ≤ (sortedHist history).length := by
  unfold trendPoints
  refine le_trans (List.length_filterMap_le _ _) ?_
  rw [List.enum_length, List.length_map]
  unfold keptHist
  simp only [List.length_drop]
  omega

/-- When fewer than two usable regression points remain, `calculate_trend`
answers "N/A". -/
lemma calculate_trend_na (history : List (ℤ × PyFloat))
    (hlt : (trendPoints history 5).length < 2) : calculate_trend history 5 = "N/A" := by
  by_cases he : history.isEmpty
  · simp [calculate_trend, he]
  · by_cases hs : (sortedHist history).length < 2
    · simp [calculate_trend, he, hs]
    · simp [calculate_trend, he, hs, hlt]

/-- C3 (amended): the three concrete histories classify as Uptrend, Downtrend
and Flat respectively; and for every history with at least two usable points,
`calculate_trend` classifies by the OLS slope over mean absolute value with
the ±0.05 thresholds — where the 0-based x index is assigned within the kept
window before NaN values are dropped, so dropped entries leave gaps in x. -/
theorem C3_thm :
    calculate_trend [((0 : ℤ), some 100), (1, some 110), (2, some 121)] 5 = "Uptrend ↗" ∧
    calculate_trend [((0 : ℤ), some 100), (1, some 90), (2, some 81)] 5 = "Downtrend ↘" ∧
    calculate_trend [((0 : ℤ), some 100), (1, some 101), (2, some 99)] 5 = "Flat ➡" ∧
    ∀ history : List (ℤ × PyFloat), 2 ≤ (trendPoints history 5).length →
      calculate_trend history 5 =
        (if meanAbs (trendPoints history 5) = 0 then "Flat ➡"
         else if olsSlope (trendPoints history 5) / meanAbs (trendPoints history 5) > 0.05
           then "Uptrend ↗"
         else if olsSlope (trendPoints history 5) / meanAbs (trendPoints history 5) < -0.05
           then "Downtrend ↘"
         else "Flat ➡") := by
  refine ⟨?_, ?_, ?_, ?_⟩
  · norm_num [calculate_trend, trendPoints, keptHist, sortedHist, olsSlope, meanAbs,
      List.insertionSort, List.orderedInsert, List.enum, List.enumFrom, List.filterMap]
  · norm_num [calculate_trend, trendPoints, keptHist, sortedHist, olsSlope, meanAbs,
      List.insertionSort, List.orderedInsert, List.enum, List.enumFrom, List.filterMap]
  · norm_num [calculate_trend, trendPoints, keptHist, sortedHist, olsSlope, meanAbs,
      List.insertionSort, List.orderedInsert, List.enum, List.enumFrom, List.filterMap]
  · intro history hlen
    have hs2 : 2 ≤ (sortedHist history).length :=
      le_trans hlen (trendPoints_length_le history 5)
    have hne : history.isEmpty = false := by
      cases history with
      | nil => simp [sortedHist, List.insertionSort] at hs2
      | cons a t => rfl
    have h1 : ¬ ((sortedHist history).length < 2) := by omega
    have h2 : ¬ ((trendPoints history 5).length < 2) := by omega
    simp [calculate_trend, hne, h1, h2]

/-- The history used to separate the two x-indexing readings: a NaN in the
middle of the kept window. -/
def c3h : List (ℤ × PyFloat) := [(0, some 100), (1, none), (2, some (221 / 2))]

/-- C3 counterexample: on the history `{0: 100, 1: NaN, 2: 110.5}`, the code
(x indices 0 and 2, slope 5.25, ratio ≈ 0.0499) answers Flat, while the
spec-worded classifier (x rank 0 and 1 among retained points, slope 10.5,
ratio ≈ 0.0998) answers Uptrend. -/
theorem C3_cex : calculate_trend c3h 5 = "Flat ➡" ∧
    classifyTrendSpecWords c3h 5 = "Uptrend ↗" := by
  constructor
  · norm_num [c3h, calculate_trend, trendPoints, keptHist, sortedHist, olsSlope, meanAbs,
      List.insertionSort, List.orderedInsert, List.enum, List.enumFrom, List.filterMap,
      show |(221 / 2 : ℚ)| = 221 / 2 from abs_of_pos (by norm_num)]
  · norm_num [c3h, classifyTrendSpecWords, keptHist, sortedHist, olsSlope, meanAbs,
      List.insertionSort, List.orderedInsert, List.enum, List.enumFrom, List.filterMap,
      show |(221 / 2 : ℚ)| = 221 / 2 from abs_of_pos (by norm_num)]

/-- The Uptrend example history, used by the C3 witness. -/
def c3w : List (ℤ × PyFloat) := [(0, some 100), (1, some 110), (2, some 121)]

/-- C3 witness: the threshold characterization applied to a concrete
three-point history. -/
theorem C3_wit :
    calculate_trend c3w 5 =
      (if meanAbs (trendPoints c3w 5) = 0 then "Flat ➡"
       else if olsSlope (trendPoints c3w 5) / meanAbs (trendPoints c3w 5) > 0.05
         then "Uptrend ↗"
       else if olsSlope (trendPoints c3w 5) / meanAbs (trendPoints c3w 5) < -0.05
         then "Downtrend ↘"
       else "Flat ➡") :=
  C3_thm.2.2.2 c3w (by decide)

/-- C4: whenever the history is missing/not a mapping (`none`), or has fewer
than two usable (non-NaN, within the kept window) entries, `determine_trend`
falls through to the scalar growth-rate fallback: Unknown ("N/A") for an
undefined rate, Uptrend above 0.05, Downtrend below -0.05, else Flat. -/
theorem C4_thm (history : Option (List (ℤ × PyFloat))) (growth_rate : PyFloat)
    (h : history = none ∨ ∃ l, history = some l ∧ (trendPoints l 5).length < 2) :
    determine_trend history growth_rate =
      (match growth_rate with
       | none => "N/A"
       | some g =>
         if g > 0.05 then "Uptrend ↗"
         else if g < -0.05 then "Downtrend ↘"
         else "Flat ➡") := by
  rcases h with hnone | ⟨l, hl, hlen⟩
  · subst hnone
    simp [determine_trend]
  · subst hl
    have hna := calculate_trend_na l hlen
    by_cases hle : l.isEmpty
    · simp [determine_trend, hle]
    · simp [determine_trend, hle, hna]

/-- C4 witness: a missing history with a 10% growth rate classifies
Uptrend. -/
theorem C4_wit : determine_trend none (some (1 / 10)) = "Uptrend ↗" := by
  have h := C4_thm none (some (1 / 10)) (Or.inl rfl)
  rw [h]
  norm_num

/-- Splitting a row list by whether `pcf` is na. -/
lemma length_filter_pcf_split (l : List VRow) :
    (l.filter fun r => notna r.pcf).length + (l.filter fun r => r.pcf.isNone).length
      = l.length := by
  induction l with
  | nil => simp
  | cons r t ih =>
    rcases hr : r.pcf with _ | v <;>
      simp [List.filter_cons, hr, notna] at ih ⊢ <;> omega

/-- C5 (amended): rows with non-positive (or NaN) market cap are always
omitted by the encoder, even with `hideInvalid` off; among the remaining
rows, turning `hideInvalid` on shrinks the output by exactly the number of
rows whose `pcf` is na, and with it off every positive-market-cap row
appears. -/
theorem C5_thm (df : List VRow) (sb : Bool) :
    (build_cells df false sb).length = (df.filter fun r => pyPos r.market_cap).length ∧
    (build_cells df true sb).length
      + ((df.filter fun r => pyPos r.market_cap).filter fun r => r.pcf.isNone).length
      = (build_cells df false sb).length := by
  constructor
  · simp [build_cells]
  · simp only [build_cells, if_true, if_false, List.length_map, Bool.true_eq_false]
    exact length_filter_pcf_split _

/-- A row with zero market cap (and hence na `pcf`). -/
def c5row : VRow :=
  { ticker_display := "Z", market_cap := some 0, pcf := none,
    cf_method := "OCF", pcf_display := "N/A" }

/-- C5 counterexample: with `hideInvalid` off, a record with market cap 0 is
still dropped from the encoder output (line 48 filters `market_cap > 0`
unconditionally), so not every input record appears. -/
theorem C5_cex : build_cells [c5row] false false = [] ∧
    (build_cells [c5row] false false).length ≠ [c5row].length := by
  exact ⟨rfl, by decide⟩

/-- A valid row with pcf 5, used by C6. -/
def c6a : VRow :=
  { ticker_display := "A", market_cap := some 100, pcf := some 5,
    cf_method := "OCF", pcf_display := "5.0x" }

/-- A valid row with pcf 20, used by C6. -/
def c6b : VRow :=
  { ticker_display := "B", market_cap := some 100, pcf := some 20,
    cf_method := "OCF", pcf_display := "20.0x" }

/-- C6: under ByUndervaluation sizing, a valid row of pcf p gets size
1000000 / p, an Unvalued row gets the fixed constant 1000, and the two
concrete rows with pcf 5 and pcf 20 get sizes 200000 and 50000 — the exact
4:1 inverse ratio. -/
theorem C6_thm :
    (∀ (r : VRow) (p : ℚ), r.pcf = some p → 0 < p →
       (cellOf r true).value = 1000000 / p) ∧
    (∀ r : VRow, r.pcf = none → (cellOf r true).value = 1000) ∧
    ((build_cells [c6a, c6b] true true).map Cell.value = [200000, 50000] ∧
      (200000 : ℚ) = 4 * 50000) := by
  refine ⟨?_, ?_, ?_, by norm_num⟩
  · intro r p hp hpos
    simp [cellOf, isnaOrNonpos, hp, not_le.mpr hpos, safe_float]
    rw [inv_mul_eq_div]
  · intro r hp
    simp [cellOf, isnaOrNonpos, hp]
  · have h5 : isnaOrNonpos (c6a.pcf) = false := by decide
    have h20 : isnaOrNonpos (c6b.pcf) = false := by decide
    norm_num [build_cells, cellOf, c6a, c6b, pyPos, notna, isnaOrNonpos, safe_float,
      List.filter]

/-- An Unvalued row, used by the C6 witness. -/
def c6na : VRow :=
  { ticker_display := "N", market_cap := some 100, pcf := none,
    cf_method := "OCF", pcf_display := "N/A" }

/-- C6 witness: the two sizing branches applied at concrete rows. -/
theorem C6_wit : (cellOf c6a true).value = 1000000 / 5 ∧ (cellOf c6na true).value = 1000 :=
  ⟨C6_thm.1 c6a 5 rfl (by norm_num), C6_thm.2.1 c6na rfl⟩

/-- C7 (amended): under ByMarketCap sizing, every rendered row — valid or
Unvalued — gets its market cap as the treemap size; the fixed constant 1000
for Unvalued rows applies only under ByUndervaluation sizing. -/
theorem C7_thm (r : VRow) : (cellOf r false).value = safe_float r.market_cap := by
  rcases h : isnaOrNonpos r.pcf <;> simp [cellOf, h]

/-- An Unvalued row with a 5e9 market cap. -/
def c7row : VRow :=
  { ticker_display := "X", market_cap := some 5000000000, pcf := none,
    cf_method := "OCF", pcf_display := "N/A" }

/-- C7 counterexample: an Unvalued row kept in the output (`hideInvalid`
off) gets its full market cap 5e9 as ByMarketCap size, not the small
constant 1000. -/
theorem C7_cex :
    build_cells [c7row] false false = [cellOf c7row false] ∧
    (cellOf c7row false).value = 5000000000 ∧ (cellOf c7row false).value ≠ 1000 := by
  exact ⟨rfl, rfl, by decide⟩

/-- The C8 scenario record: 1e11 market cap, Technology sector, 1e10 OCF. -/
def c8row : Row :=
  { ticker_display := "T", market_cap := some 100000000000, sector := "Technology",
    ttm_ocf := some 10000000000, ttm_ffo_proxy := none }

/-- C8: the grade label is a total bucketing of a valid pcf at 10/15/20,
with 10.0 itself graded Undervalued; an Unvalued row gets the "not
applicable" grade with the fixed grey colour; and the scenario record
(1e11 market cap, Technology, 1e10 OCF) yields pcf 10, method OCF, display
"10.0x" and the Undervalued grade. -/
theorem C8_thm :
    (∀ (r : VRow) (p : ℚ) (sb : Bool), r.pcf = some p → 0 < p →
      ((cellOf r sb).grade = "🟢저평가" ↔ p ≤ 10) ∧
      ((cellOf r sb).grade = "🔵중립" ↔ 10 < p ∧ p ≤ 15) ∧
      ((cellOf r sb).grade = "🟠약간고평가" ↔ 15 < p ∧ p ≤ 20) ∧
      ((cellOf r sb).grade = "🔴고평가" ↔ 20 < p)) ∧
    (∀ (r : VRow) (sb : Bool), r.pcf = none →
      (cellOf r sb).grade = "음수/N/A" ∧ (cellOf r sb).color = CellColor.grey) ∧
    ((enrich_row c8row).pcf = some 10 ∧ (enrich_row c8row).cf_method = "OCF" ∧
      (enrich_row c8row).pcf_display = "10.0x" ∧
      (cellOf (enrich_row c8row) false).grade = "🟢저평가") := by
  have hpcf : (enrich_row c8row).pcf = some (100000000000 / 10000000000) := rfl
  have hq : (100000000000 / 10000000000 : ℚ) = 10 := by norm_num
  rw [hq] at hpcf
  refine ⟨?_, ?_, hpcf, rfl, ?_, ?_⟩
  · intro r p sb hp hpos
    have hg : (cellOf r sb).grade =
        (if p ≤ 10 then "🟢저평가"
         else if p ≤ 15 then "🔵중립"
         else if p ≤ 20 then "🟠약간고평가"
         else "🔴고평가") := by
      simp [cellOf, isnaOrNonpos, hp, not_le.mpr hpos, safe_float]
    rw [hg]
    by_cases h10 : p ≤ 10 <;> by_cases h15 : p ≤ 15 <;> by_cases h20 : p ≤ 20 <;>
      simp [h10, h15, h20] <;> linarith
  · intro r sb hp
    exact ⟨by simp [cellOf, isnaOrNonpos, hp], by simp [cellOf, isnaOrNonpos, hp]⟩
  · have h3 : (enrich_row c8row).pcf_display =
        match (enrich_row c8row).pcf with
        | some q => fmt1 q ++ "x"
        | none => "N/A" := rfl
    rw [h3, hpcf]
    have h4 : round ((10 : ℚ) * 10) = 100 := by norm_num [round_eq]
    simp only [fmt1, h4]
    decide
  · norm_num [cellOf, isnaOrNonpos, hpcf, safe_float]

/-- A valid row with pcf 12, used by the C8 witness. -/
def c8v : VRow :=
  { ticker_display := "V", market_cap := some 100, pcf := some 12,
    cf_method := "OCF", pcf_display := "12.0x" }

/-- An Unvalued row, used by the C8 witness. -/
def c8na : VRow :=
  { ticker_display := "W", market_cap := some 100, pcf := none,
    cf_method := "OCF", pcf_display := "N/A" }

/-- C8 witness: the bucketing and the grey branch applied at concrete rows. -/
theorem C8_wit :
    ((cellOf c8v false).grade = "🔵중립" ↔ (10 : ℚ) < 12 ∧ (12 : ℚ) ≤ 15) ∧
    ((cellOf c8na false).grade = "음수/N/A" ∧ (cellOf c8na false).color = CellColor.grey) :=
  ⟨(C8_thm.1 c8v 12 false rfl (by norm_num)).2.1, C8_thm.2.1 c8na false rfl⟩

/-- A sorted positive list has a positive median. -/
lemma listMedian_pos (l : List ℚ) (hne : l ≠ []) (hpos : ∀ x ∈ l, 0 < x) :
    0 < listMedian l := by
  have hperm := List.perm_insertionSort (fun a b : ℚ => a ≤ b) l
  have hlen : (l.insertionSort fun a b : ℚ => a ≤ b).length = l.length := hperm.length_eq
  have hpos2 : ∀ x ∈ (l.insertionSort fun a b : ℚ => a ≤ b), 0 < x := fun x hx =>
    hpos x (hperm.mem_iff.mp hx)
  have hl0 : 0 < l.length := List.length_pos.mpr hne
  have hs0 : 0 < (l.insertionSort fun a b : ℚ => a ≤ b).length := by omega
  simp only [listMedian]
  split
  · have hidx : (l.insertionSort fun a b : ℚ => a ≤ b).length / 2
        < (l.insertionSort fun a b : ℚ => a ≤ b).length := Nat.div_lt_self hs0 one_lt_two
    rw [List.getD_eq_getElem _ _ hidx]
    exact hpos2 _ (List.getElem_mem hidx)
  · have hidx : (l.insertionSort fun a b : ℚ => a ≤ b).length / 2
        < (l.insertionSort fun a b : ℚ => a ≤ b).length := Nat.div_lt_self hs0 one_lt_two
    have hidx1 : (l.insertionSort fun a b : ℚ => a ≤ b).length / 2 - 1
        < (l.insertionSort fun a b : ℚ => a ≤ b).length := by omega
    rw [List.getD_eq_getElem _ _ hidx, List.getD_eq_getElem _ _ hidx1]
    have ha := hpos2 _ (List.getElem_mem hidx1)
    have hb := hpos2 _ (List.getElem_mem hidx)
    linarith

/-- C9: the summary statistics count every row, count as valid exactly the
rows with defined positive pcf, report the rest as the negative/N-A count,
and compute median and mean only over the valid rows — both reported as
"N/A" when no valid row exists. -/
theorem C9_thm (df : List VRow) :
    (get_summary_stats df).total = df.length ∧
    (get_summary_stats df).valid = (df.filter fun r => notna r.pcf && pyPos r.pcf).length ∧
    (get_summary_stats df).negative_cf
      = df.length - (df.filter fun r => notna r.pcf && pyPos r.pcf).length ∧
    ((df.filter fun r => notna r.pcf && pyPos r.pcf) = [] →
      (get_summary_stats df).median_pcf = "N/A" ∧ (get_summary_stats df).mean_pcf = "N/A") ∧
    ((df.filter fun r => notna r.pcf && pyPos r.pcf) ≠ [] →
      (get_summary_stats df).median_pcf
        = fmt1 (listMedian ((df.filter fun r => notna r.pcf && pyPos r.pcf).map
            fun r => safe_float r.pcf)) ++ "x" ∧
      (get_summary_stats df).mean_pcf
        = fmt1 ((((df.filter fun r => notna r.pcf && pyPos r.pcf).map
            fun r => safe_float r.pcf).sum)
            / (((df.filter fun r => notna r.pcf && pyPos r.pcf).map
            fun r => safe_float r.pcf).length : ℚ)) ++ "x") := by
  refine ⟨rfl, rfl, rfl, ?_, ?_⟩
  · intro hemp
    constructor <;> simp [get_summary_stats, hemp]
  · intro hne
    have hie : (df.filter fun r => notna r.pcf && pyPos r.pcf).isEmpty = false := by
      rcases hfe : df.filter fun r => notna r.pcf && pyPos r.pcf with _ | _
      · exact absurd hfe hne
      · rw [hfe]
        rfl
    have hvals_pos : ∀ x ∈ (df.filter fun r => notna r.pcf && pyPos r.pcf).map
        (fun r => safe_float r.pcf), 0 < x := by
      intro x hx
      rcases List.mem_map.mp hx with ⟨r, hr, rfl⟩
      have hpred := (List.mem_filter.mp hr).2
      rcases hq : r.pcf with _ | v
      · simp [notna, hq] at hpred
      · simp only [hq, notna, pyPos, Option.isSome_some, Bool.true_and,
          decide_eq_true_eq] at hpred
        simpa [hq, safe_float] using hpred
    have hvne : ((df.filter fun r => notna r.pcf && pyPos r.pcf).map
        (fun r => safe_float r.pcf)) ≠ [] := by
      simpa using hne
    have hmed := listMedian_pos _ hvne hvals_pos
    have hsum := List.sum_pos _ hvals_pos hvne
    have hlenpos : (0 : ℚ) < ((df.filter fun r => notna r.pcf && pyPos r.pcf).map
        (fun r => safe_float r.pcf)).length := by
      have h := List.length_pos.mpr hvne
      exact_mod_cast h
    have hmean := div_pos hsum hlenpos
    have hmean2 : (((df.filter fun r => notna r.pcf && pyPos r.pcf).map
        (fun r => safe_float r.pcf)).sum
        / ((df.filter fun r => notna r.pcf && pyPos r.pcf).length : ℚ)) ≠ 0 := by
      have h := hmean
      rw [List.length_map] at h
      exact h.ne'
    constructor <;> simp [get_summary_stats, hie, hmed.ne', hmean2]

/-- A valid row with pcf 12, used by the C9 witness. -/
def c9r : VRow :=
  { ticker_display := "S", market_cap := some 100, pcf := some 12,
    cf_method := "OCF", pcf_display := "12.0x" }

/-- C9 witness: both branches applied at concrete inputs — the empty data
set reports "N/A", and a one-row data set reports the formatted median of
its valid pcf values. -/
theorem C9_wit :
    ((get_summary_stats ([] : List VRow)).median_pcf = "N/A" ∧
      (get_summary_stats ([] : List VRow)).mean_pcf = "N/A") ∧
    (get_summary_stats [c9r]).median_pcf
      = fmt1 (listMedian (([c9r].filter fun r => notna r.pcf && pyPos r.pcf).map
          fun r => safe_float r.pcf)) ++ "x" :=
  ⟨(C9_thm []).2.2.2.1 rfl, ((C9_thm [c9r]).2.2.2.2 (by decide)).1⟩

end GValuemap
